import Mathlib

/-!
Shallow embedding of the RFItoLingq pipeline (src/main.py, src/src/scraper.py,
src/src/lingq_api.py, src/src/utils.py) for checking the specification's claims.

Conventions of the embedding:
* Python strings are modelled as `List Char` (file contents, URLs, metadata
  values); directory and file names on the upload side use Lean `String`.
* The filesystem is an association list from path to file content; writing a
  file prepends the pair, and lookup takes the first match, so a later write
  shadows an earlier one (Python's write_text overwrites).
* Network I/O is an oracle function returning `Except String …`; a raised
  requests exception is the `.error` case and propagates exactly where the
  Python code lets it propagate (it is matched where the Python code has a
  try/except).
* Machine-level details that no claim touches (HTTP headers, timeouts,
  streaming chunk size) are not represented.
-/

namespace RFItoLingq

/-- Python str.strip() whitespace characters (space, tab, newline, carriage
return, vertical tab, form feed). -/
def isPyWs (c : Char) : Bool :=
  c = ' ' || c = '\t' || c = '\n' || c = '\r' || c = '\x0b' || c = '\x0c'

/-- Drop leading characters satisfying the Python whitespace predicate. -/
def trimLeftWs (l : List Char) : List Char := l.dropWhile isPyWs

/-- Drop trailing characters satisfying the Python whitespace predicate. -/
def trimRightWs (l : List Char) : List Char := (l.reverse.dropWhile isPyWs).reverse

/-- Python str.strip(): remove leading and trailing whitespace. -/
def pyStrip (l : List Char) : List Char := trimRightWs (trimLeftWs l)

/-- Python str.split(sep) for a one-character separator: always returns at
least one (possibly empty) segment, one more segment per separator occurrence. -/
def pySplit (sep : Char) : List Char → List (List Char)
  | [] => [[]]
  | c :: rest =>
    if c = sep then [] :: pySplit sep rest
    else
      match pySplit sep rest with
      | [] => [[c]]
      | seg :: segs => (c :: seg) :: segs

/-- Python str.split(sep, 1) when the separator occurs: the part before the
first separator and the part after it. -/
def splitFirst (sep : Char) : List Char → List Char × List Char
  | [] => ([], [])
  | c :: rest =>
    if c = sep then ([], rest)
    else
      let p := splitFirst sep rest
      (c :: p.1, p.2)

/-- Python dict lookup on an association list (first binding wins; with
`dictInsert` below, keys are unique so there is at most one). -/
def dictGet {κ α : Type} [DecidableEq κ] : List (κ × α) → κ → Option α
  | [], _ => none
  | (k', v) :: rest, k => if k' = k then some v else dictGet rest k

/-- Python dict assignment d[k] = v: update the existing binding in place, or
append a new one. -/
def dictInsert {κ α : Type} [DecidableEq κ] (k : κ) (v : α) (m : List (κ × α)) :
    List (κ × α) :=
  if (dictGet m k).isSome then
    m.map fun p => if p.1 = k then (k, v) else p
  else
    m ++ [(k, v)]

/-- Truthiness of a Python Optional[str]: truthy iff present and non-empty. -/
def optStrTruthy : Option (List Char) → Bool
  | none => false
  | some s => !s.isEmpty

/-! ### Slug derivation (scraper.py, safe_slug_from_url) -/

/-- Value of a hexadecimal digit (either case), as accepted by urllib's
percent-decoding: decimal digits, then the letters a-f after lowercasing. -/
def hexVal (c : Char) : Option Nat :=
  if c.isDigit then
    some (c.toNat - 48)
  else
    let low := c.toLower
    if 'a' ≤ low && low ≤ 'f' then some (low.toNat - 97 + 10) else none

/-- urllib.parse.unquote, modelled at byte level: every valid %XX escape
becomes the character with code point XX, an invalid escape keeps the literal
percent sign.  (Python additionally UTF-8-decodes consecutive decoded bytes
above 0x7f into one code point; for the slug computation this is extensionally
irrelevant because every byte above 0x7f and every multi-byte code point is
non-alphanumeric, so both encodings collapse to the same hyphen runs.) -/
def unquote : List Char → List Char
  | '%' :: a :: b :: rest =>
    match hexVal a, hexVal b with
    | some x, some y => Char.ofNat (16 * x + y) :: unquote rest
    | _, _ => '%' :: unquote (a :: b :: rest)
  | c :: rest => c :: unquote rest
  | [] => []

/-- ASCII-alphanumeric test, the character class [a-zA-Z0-9] of the slug
regular expression. -/
def isAsciiAlnum (c : Char) : Bool :=
  ('a' ≤ c && c ≤ 'z') || ('A' ≤ c && c ≤ 'Z') || ('0' ≤ c && c ≤ '9')

/-- Collapse every maximal run of hyphens to a single hyphen. -/
def squashDashes : List Char → List Char
  | [] => []
  | [c] => [c]
  | a :: b :: rest =>
    if a = '-' && b = '-' then squashDashes (b :: rest)
    else a :: squashDashes (b :: rest)

/-- re.sub(r"[^a-zA-Z0-9]+", "-", tail): each maximal run of
non-alphanumerics becomes one hyphen.  Implemented as a per-character
replacement followed by collapsing hyphen runs: alphanumeric characters are
never mapped to a hyphen, so the hyphen runs after the map are exactly the
images of the non-alphanumeric runs.  (collapseNonAlnum_eq_runCollapse below
proves this implementation equal to the direct run-replacement reading.) -/
def collapseNonAlnum (l : List Char) : List Char :=
  squashDashes (l.map fun c => if isAsciiAlnum c then c else '-')

/-- Python str.strip("-"): remove leading and trailing hyphens. -/
def stripDashes (l : List Char) : List Char :=
  ((l.dropWhile fun c => c = '-').reverse.dropWhile fun c => c = '-').reverse

/-- Python str.rstrip("/"). -/
def rstripSlashes (l : List Char) : List Char :=
  (l.reverse.dropWhile fun c => c = '/').reverse

/-- url.rstrip("/").split("/")[-1]: the last path segment. -/
def lastSegment (url : List Char) : List Char :=
  (pySplit '/' (rstripSlashes url)).getLastD []

/-- scraper.py safe_slug_from_url: filesystem-safe slug from the last path
segment of the URL. -/
def safe_slug_from_url (url : List Char) : List Char :=
  let tail := unquote (lastSegment url)
  let slug := stripDashes (collapseNonAlnum tail)
  if slug.isEmpty then "episode".data else slug

/-- Modelled from the spec's (amended) words for claim C2: replace each run of
non-alphanumeric characters by a single hyphen, directly by run recursion. -/
def runCollapse : List Char → List Char
  | [] => []
  | c :: rest =>
    if isAsciiAlnum c then c :: runCollapse rest
    else '-' :: runCollapse (rest.dropWhile fun d => !isAsciiAlnum d)
termination_by l => l.length
decreasing_by
  · simp only [List.length_cons]; omega
  · have := (List.dropWhile_sublist (l := rest) fun d => !isAsciiAlnum d).length_le
    simp only [List.length_cons]; omega

/-- Modelled from the spec's (amended) words for claim C2: the slug is the
percent-decoded last path segment with each run of non-alphanumerics collapsed
to a single hyphen and leading/trailing hyphens removed, the literal
"episode" when that is empty. -/
def slug_model (url : List Char) : List Char :=
  let collapsed := stripDashes (runCollapse (unquote (lastSegment url)))
  if collapsed.isEmpty then "episode".data else collapsed

/-! ### Stable sorting (model of Python's built-in sorted) -/

/-- Insert an element in front of the first list element it relates to;
the auxiliary step of insertion sort. -/
def pySortedInsert {α : Type} (le : α → α → Bool) (x : α) : List α → List α
  | [] => [x]
  | y :: ys => if le x y then x :: y :: ys else y :: pySortedInsert le x ys

/-- Stable insertion sort: a model of Python's sorted(iterable, key=…)
(any two stable sorts of the same comparison agree, so insertion sort is an
extensionally faithful model of timsort). -/
def pySorted {α : Type} (le : α → α → Bool) : List α → List α
  | [] => []
  | x :: xs => pySortedInsert le x (pySorted le xs)

/-! ### Listing collection (scraper.py, fetch_listing) -/

/-- Dates ordered as datetime values; only comparisons matter to the claims,
so a date is an integer (for example the day number). -/
abbrev EpDate := Int

/-- URLs as Python strings. -/
abbrev Url := List Char

/-- Comparator for sorted(..., key=lambda t: t[0], reverse=True): place x
before y iff x's date is at least y's. -/
def dateDescLe (x y : EpDate × Url) : Bool := decide (y.1 ≤ x.1)

/-- fetch_listing after the page loop, up to but not including the limit
truncation: sorted([(date, url) for url, date in collected.items()],
key=…, reverse=True) then the optional since filter.  `collected` is the
URL-keyed dictionary built by the page loop (its keys are distinct). -/
def fetch_listing_pre (collected : List (Url × EpDate)) (since : Option EpDate) :
    List (EpDate × Url) :=
  let episodes := pySorted dateDescLe (collected.map fun p => (p.2, p.1))
  match since with
  | some d => episodes.filter fun e => decide (d ≤ e.1)
  | none => episodes

/-- fetch_listing's returned value: the sorted, since-filtered collection,
truncated to `limit` entries when limit is non-zero (Python's `if limit:`
treats 0 and None alike, both modelled by 0). -/
def fetch_listing_post (collected : List (Url × EpDate)) (since : Option EpDate)
    (limit : Nat) : List (EpDate × Url) :=
  if limit ≠ 0 then (fetch_listing_pre collected since).take limit
  else fetch_listing_pre collected since

/-! ### Filesystem, downloader, and episode processing (scraper.py) -/

/-- The data directory contents: association list from path to file content. -/
abbrev FS := List (List Char × List Char)

/-- File existence: dest.exists(). -/
def fsExists (fs : FS) (path : List Char) : Bool := (dictGet fs path).isSome

/-- File write (Python write_text semantics: create or overwrite).  Lookup
takes the first binding, so prepending shadows any earlier content. -/
def fsWrite (path content : List Char) (fs : FS) : FS := (path, content) :: fs

/-- scraper.py download_file: skip (no request) when the destination exists,
otherwise perform one GET and stream the body to the destination; an HTTP
error propagates.  The second component counts network requests made. -/
def download_file (fetch : List Char → Except String (List Char)) (fs : FS)
    (url dest : List Char) : Except String FS × Nat :=
  if fsExists fs dest then (.ok fs, 0)
  else
    match fetch url with
    | .error e => (.error e, 1)
    | .ok body => (.ok (fsWrite dest body fs), 1)

/-- Result of extract_media: (mp3_url, transcript, image_url), each optional. -/
structure ExtractResult where
  mp3_url : Option (List Char)
  transcript : Option (List Char)
  image_url : Option (List Char)
deriving DecidableEq

/-- Network behaviour of a scrape run: what extract_media yields for an
episode URL (its page fetch raises on a request error), and what body a plain
file GET yields. -/
structure ScrapeOracle where
  extract_media : List Char → Except String ExtractResult
  fetchFile : List Char → Except String (List Char)

/-- pathlib.Path(url).name: the last non-empty path component. -/
def pyBasename (l : List Char) : List Char :=
  ((pySplit '/' l).filter fun seg => !seg.isEmpty).getLastD []

/-- The audio-download step of process_episode: when an mp3 URL was found
(Python truthiness) and downloading is on, stream it next to the episode
directory under the URL's basename; a download error propagates. -/
def mp3_step (fetch : List Char → Except String (List Char)) (fs : FS)
    (folder : List Char) (mp3_url : Option (List Char)) (download : Bool) :
    Except String FS :=
  if optStrTruthy mp3_url then
    if download then
      (download_file fetch fs (mp3_url.getD [])
        (folder ++ '/' :: pyBasename (mp3_url.getD []))).1
    else .ok fs
  else .ok fs

/-- The image-download step of process_episode: download to image.jpg when an
image URL was found; a requests error here is caught and logged, leaving the
filesystem as it was. -/
def image_step (fetch : List Char → Except String (List Char)) (fs : FS)
    (folder : List Char) (image_url : Option (List Char)) (download : Bool) : FS :=
  if optStrTruthy image_url && download then
    match (download_file fetch fs (image_url.getD [])
        (folder ++ "/image.jpg".data)).1 with
    | .ok fs' => fs'
    | .error _ => fs
  else fs

/-- The four "key: value" lines of episode.txt, in source order.  Python's
`{mp3_url or ''}` renders an absent or empty optional as the empty string,
which `Option.getD []` reproduces; the transcript line holds the file name
"transcript.txt" exactly when the transcript is truthy. -/
def episode_txt_lines (url : List Char) (r : ExtractResult) : List (List Char) :=
  ["url: ".data ++ url,
   "mp3: ".data ++ r.mp3_url.getD [],
   "transcript: ".data ++ (if optStrTruthy r.transcript then "transcript.txt".data else []),
   "image: ".data ++ r.image_url.getD []]

/-- Python "\n".join. -/
def joinLines : List (List Char) → List Char
  | [] => []
  | [l] => l
  | l :: ls => l ++ '\n' :: joinLines ls

/-- The content written to episode.txt. -/
def episode_txt_content (url : List Char) (r : ExtractResult) : List Char :=
  joinLines (episode_txt_lines url r)

/-- scraper.py process_episode: derive the folder from date and slug, extract
media (an episode-page request error propagates), download audio (an error
propagates), write the transcript when present, download the image (an error
is caught), and always write the four-line episode.txt.  Returns the updated
filesystem and the folder path. -/
def process_episode (orc : ScrapeOracle) (download : Bool) (fs : FS)
    (dateStr url : List Char) : Except String (FS × List Char) :=
  let slug := safe_slug_from_url url
  let folder := dateStr ++ '-' :: slug
  match orc.extract_media url with
  | .error e => .error e
  | .ok r =>
    match mp3_step orc.fetchFile fs folder r.mp3_url download with
    | .error e => .error e
    | .ok fs1 =>
      let fs2 :=
        if optStrTruthy r.transcript then
          fsWrite (folder ++ "/transcript.txt".data) (r.transcript.getD []) fs1
        else fs1
      let fs3 := image_step orc.fetchFile fs2 folder r.image_url download
      let fs4 := fsWrite (folder ++ "/episode.txt".data) (episode_txt_content url r) fs3
      .ok (fs4, folder)

/-- The episode loop of cmd_scrape (main.py): process each (date, url) in
turn.  The Python loop body has no try/except, so an exception raised by
process_episode propagates and ends the whole loop. -/
def cmd_scrape_loop (orc : ScrapeOracle) (fs : FS) :
    List (List Char × List Char) → Except String FS
  | [] => .ok fs
  | (d, u) :: rest =>
    match process_episode orc true fs d u with
    | .error e => .error e
    | .ok (fs', _) => cmd_scrape_loop orc fs' rest

/-! ### Episode store reading (utils.py) -/

/-- utils.py parse_episode_meta, on the content of an episode.txt file:
for each line containing a colon, bind the stripped text before the first
colon to the stripped text after it. -/
def parse_meta_content (content : List Char) : List (List Char × List Char) :=
  (pySplit '\n' content).foldl
    (fun m line =>
      if ':' ∈ line then
        let p := splitFirst ':' line
        dictInsert (pyStrip p.1) (pyStrip p.2) m
      else m)
    []

/-- utils.py parse_episode_meta, reading dir/episode.txt from the filesystem
(empty mapping when the file is missing). -/
def parse_episode_meta (fs : FS) (dir : List Char) : List (List Char × List Char) :=
  match dictGet fs (dir ++ "/episode.txt".data) with
  | none => []
  | some content => parse_meta_content content

/-! ### Upload side (utils.py find_episodes / find_mp3, main.py upload) -/

/-- One entry of the data directory as the upload pass sees it: the entry
name, whether it is a directory, the content of transcript.txt and
episode.txt when those files exist, and the names of the files it holds. -/
structure EpisodeDir where
  name : String
  isDir : Bool
  transcript : Option (List Char)
  metaContent : Option (List Char)
  files : List String
deriving DecidableEq

/-- Comparator for sorted(data_dir.iterdir()): entries under one parent are
ordered by their name string. -/
def nameLe (a b : EpisodeDir) : Bool := decide (a.name ≤ b.name)

/-- utils.py find_episodes: the directory entries, sorted by name, that are
directories holding both transcript.txt and episode.txt. -/
def find_episodes (entries : List EpisodeDir) : List EpisodeDir :=
  (pySorted nameLe entries).filter fun e =>
    e.isDir && e.transcript.isSome && e.metaContent.isSome

/-- pathlib suffix: the last dot of the name and what follows it, empty when
the name has no dot after its first character. -/
def pySuffix (name : List Char) : List Char :=
  if '.' ∈ name.drop 1 then
    '.' :: (name.reverse.takeWhile fun c => c ≠ '.').reverse
  else []

/-- utils.py find_mp3: the first file of the directory whose lowercased
suffix is ".mp3". -/
def find_mp3 (files : List String) : Option String :=
  files.find? fun f => (pySuffix f.data).map Char.toLower = ".mp3".data

/-- Identifier part of a create-lesson response, lesson.get("id"). -/
structure CreateResp where
  id : Option Nat
deriving DecidableEq

/-- Remote behaviour of an upload run: the outcome of the create-lesson POST
for a given title (an HTTP error is the .error case; the follow-up metadata
patch and timestamp trigger catch their own errors in the source and so
never raise). -/
structure UploadOracle where
  createLesson : String → Except String CreateResp

/-- A remote request issued by upload_single_episode, with the payload fields
the claims are about. -/
inductive ApiCall
  | createLesson (title : String) (text : List Char) (status : String)
      (original_url : List Char)
  | updateLessonMetadata (lessonId : Nat)
  | genAudioTimestamps (lessonId : Nat)
deriving DecidableEq

/-- main.py upload_single_episode: skip with False when transcript.txt is
missing; build the canonical title from the first 10 characters of the
directory name; skip with True when the title is already in the remote
mapping; otherwise create the lesson ("shared" only when both audio and
image.jpg are present), and on success with a truthy lesson id patch the
metadata and, if audio was attached, trigger timestamp generation.  A create
exception is caught and reported as False.  Returns the success flag and the
remote requests issued. -/
def upload_single_episode (orc : UploadOracle) (ep : EpisodeDir)
    (existing : List (String × Nat)) : Bool × List ApiCall :=
  match ep.transcript with
  | none => (false, [])
  | some tcontent =>
    let meta := match ep.metaContent with
      | none => []
      | some c => parse_meta_content c
    let original_url := (dictGet meta "url".data).getD []
    let text := pyStrip tcontent
    let title := "Journal en français facile " ++ ep.name.take 10
    if (dictGet existing title).isSome then (true, [])
    else
      let mp3 := find_mp3 ep.files
      let hasImage := ep.files.contains "image.jpg"
      let status := if mp3.isSome && hasImage then "shared" else "private"
      match orc.createLesson title with
      | .error _ => (false, [.createLesson title text status original_url])
      | .ok resp =>
        match resp.id with
        | some lid =>
          if lid ≠ 0 then
            (true,
              [.createLesson title text status original_url,
               .updateLessonMetadata lid] ++
              (if mp3.isSome then [.genAudioTimestamps lid] else []))
          else (true, [.createLesson title text status original_url])
        | none => (true, [.createLesson title text status original_url])

/-- The target selection of cmd_upload before the limit truncation: all
eligible episode directories, narrowed to those whose name starts with the
requested date when one is given. -/
def cmd_upload_pretargets (entries : List EpisodeDir) (dateArg : Option String) :
    List EpisodeDir :=
  let all := find_episodes entries
  match dateArg with
  | some d => all.filter fun e => d.data.isPrefixOf e.name.data
  | none => all

/-- The episode directories cmd_upload iterates over: the selected targets,
truncated to `limit` when limit is non-zero (Python's `if args.limit:`). -/
def cmd_upload_targets (entries : List EpisodeDir) (dateArg : Option String)
    (limit : Nat) : List EpisodeDir :=
  if limit ≠ 0 then (cmd_upload_pretargets entries dateArg).take limit
  else cmd_upload_pretargets entries dateArg

/-- The upload loop of cmd_upload: every target is processed by
upload_single_episode, whose result feeds the success count; no outcome stops
the loop. -/
def cmd_upload_results (orc : UploadOracle) (existing : List (String × Nat))
    (targets : List EpisodeDir) : List Bool :=
  targets.map fun ep => (upload_single_episode orc ep existing).1

/-! ### Remote lesson index (lingq_api.py, get_collection_lessons) -/

/-- One lesson record of a collection page, with the fields the index reads. -/
structure Lesson where
  title : Option (List Char)
  idField : Option Nat
  pkField : Option Nat
deriving DecidableEq

/-- Python `lesson.get("id") or lesson.get("pk")`: the id when truthy
(present and non-zero), else the pk. -/
def pyOrOptNat (a b : Option Nat) : Option Nat :=
  match a with
  | some n => if n ≠ 0 then some n else b
  | none => b

/-- Truthiness of the optional title (present and non-empty) and of the
optional pk (present and non-zero), the `if title and pk` guard. -/
def lessonKeyVal (lesson : Lesson) : Option (List Char × Nat) :=
  match lesson.title, pyOrOptNat lesson.idField lesson.pkField with
  | some t, some pk => if !t.isEmpty && pk ≠ 0 then some (t, pk) else none
  | _, _ => none

/-- Record one lesson in the title → id mapping when both key parts are
truthy. -/
def addLesson (m : List (List Char × Nat)) (lesson : Lesson) :
    List (List Char × Nat) :=
  match lessonKeyVal lesson with
  | some (t, pk) => dictInsert t pk m
  | none => m

/-- The parsed JSON body of one lessons page: a bare list, a dict (with
optional "data" and "results" keys, either possibly null, and the "next"
indicator), or some other value, on which .get raises AttributeError. -/
inductive Payload
  | bare (xs : List Lesson)
  | dict (dataField : Option (Option (List Lesson)))
      (resultsField : Option (Option (List Lesson))) (hasNext : Bool)
  | other
deriving DecidableEq

/-- lingq_api.py _normalize_collection_list: a bare list stands; a dict
yields its "data" list if that key exists (null counting as empty), else its
"results" list likewise; anything else yields the empty list. -/
def normalize_collection_list : Payload → List Lesson
  | .bare xs => xs
  | .dict d r _ =>
    match d with
    | some v => v.getD []
    | none =>
      match r with
      | some v => v.getD []
      | none => []
  | .other => []

/-- The server's response to the GET of one lessons page. -/
inductive PageResp
  | notFound
  | reqError (msg : String)
  | ok (p : Payload)

/-- Does this response stop the pagination loop?  A 404 and a request error
break; an OK page breaks when its normalized list is empty, when it is a bare
list (data.get("next") raises AttributeError, which the except clause turns
into a break), when it is a non-dict (same), or when it is a dict with no
"next" value. -/
def stopPage : PageResp → Bool
  | .notFound => true
  | .reqError _ => true
  | .ok p =>
    (normalize_collection_list p).isEmpty ||
      (match p with
       | .bare _ => true
       | .other => true
       | .dict _ _ hasNext => !hasNext)

/-- lingq_api.py get_collection_lessons: the while-True pagination loop,
with the server modelled as a function from page number to response and an
explicit iteration budget (one unit per request).  Returns none exactly when
the budget is exhausted before the loop breaks, so "terminates within k
requests" is "the call with budget k returns some mapping". -/
def get_collection_lessons_fuel (srv : Nat → PageResp) :
    Nat → Nat → List (List Char × Nat) → Option (List (List Char × Nat))
  | 0, _, _ => none
  | fuel + 1, page, mapping =>
    match srv page with
    | .notFound => some mapping
    | .reqError _ => some mapping
    | .ok p =>
      let results := normalize_collection_list p
      if results.isEmpty then some mapping
      else
        let mapping' := results.foldl addLesson mapping
        match p with
        | .bare _ => some mapping'
        | .other => some mapping'
        | .dict _ _ hasNext =>
          if hasNext then get_collection_lessons_fuel srv fuel (page + 1) mapping'
          else some mapping'

/-! ### Concrete inputs used by counterexamples and witnesses -/

/-- A create endpoint that succeeds with lesson id 42. -/
def uoOk : UploadOracle := ⟨fun _ => .ok ⟨some 42⟩⟩

/-- An episode directory with episode.txt but no transcript.txt. -/
def epNoTranscript : EpisodeDir :=
  ⟨"2024-03-15-journal", true, none, some "url: http://a/x\nmp3: ".data, []⟩

/-- A second transcript-less directory, for the dedup-skip claim. -/
def epTitleTaken : EpisodeDir :=
  ⟨"2024-04-02-journal", true, none, some "url: http://a/y\nmp3: ".data, []⟩

/-- A remote mapping already containing epTitleTaken's canonical title. -/
def existingTaken : List (String × Nat) :=
  [("Journal en français facile 2024-04-02", 7)]

/-- An eligible directory (transcript present) whose canonical title is
already in existingTaken. -/
def epTitleTakenOk : EpisodeDir :=
  ⟨"2024-04-02-journal", true, some "Bonjour.".data, some "url: http://a/y".data, []⟩

/-- A network where every request raises. -/
def scrapeOracleDown : ScrapeOracle :=
  ⟨fun _ => .error "connection reset", fun _ => .error "connection reset"⟩

/-- Two episodes for a scrape batch. -/
def scrapeEpisodes2 : List (List Char × List Char) :=
  [("2024-03-15".data, "http://a/ep-one".data),
   ("2024-03-16".data, "http://a/ep-two".data)]

/-- An extraction with no audio URL (page exists, no mp3 match). -/
def extractNoMp3 : ExtractResult :=
  ⟨none, some "Bonjour.".data, some "http://img/i.jpg".data⟩

/-- A network where episode pages parse fine (without audio) but every file
download raises: only the image download is attempted, and it fails. -/
def scrapeOracleNoMp3 : ScrapeOracle :=
  ⟨fun _ => .ok extractNoMp3, fun _ => .error "timeout"⟩

/-- A complete extraction: audio, transcript and image all found. -/
def extractFull : ExtractResult :=
  ⟨some "http://av.rfi.fr/ep.mp3".data, some "Salut.".data,
   some "http://img/i.jpg".data⟩

/-- A fully working network for a scrape run. -/
def scrapeOracleFull : ScrapeOracle :=
  ⟨fun _ => .ok extractFull, fun _ => .ok "bytes".data⟩

/-- The episode URL of the witness scrape run. -/
def urlW : List Char := "http://a/ep-one".data

/-- The date string of the witness scrape run. -/
def dateW : List Char := "2024-03-15".data

/-- The filesystem produced by the witness scrape run. -/
def fsW : FS :=
  match process_episode scrapeOracleFull true [] dateW urlW with
  | .ok (fs, _) => fs
  | .error _ => []

/-- The folder produced by the witness scrape run. -/
def folderW : List Char :=
  match process_episode scrapeOracleFull true [] dateW urlW with
  | .ok (_, folder) => folder
  | .error _ => []

/-- A download oracle that always serves a body. -/
def fetchOk : List Char → Except String (List Char) := fun _ => .ok "bytes".data

/-- The filesystem after a first successful download_file call. -/
def fsDl : FS := [("data/ep.mp3".data, "bytes".data)]

/-- Directory entries for the upload-order witness: two eligible directories
listed out of name order, and one ineligible entry. -/
def entriesW : List EpisodeDir :=
  [⟨"2024-01-02-b", true, some "t2".data, some "url: u2".data, []⟩,
   ⟨"2024-01-01-a", true, some "t1".data, some "url: u1".data, []⟩,
   ⟨"2024-01-03-c", false, some "t3".data, some "url: u3".data, []⟩]

/-- Collected listing entries for the fetch_listing witness. -/
def collectedW : List (Url × EpDate) :=
  [("http://a/one".data, 3), ("http://a/two".data, 7), ("http://a/three".data, 5)]

/-! ### Helper lemmas: stable sort -/

theorem pySortedInsert_perm {α : Type} (le : α → α → Bool) (x : α) :
    ∀ l : List α, List.Perm (pySortedInsert le x l) (x :: l) := by
  intro l
  induction l with
  | nil => exact List.Perm.refl _
  | cons y ys ih =>
    simp only [pySortedInsert]
    by_cases h : le x y = true
    · rw [if_pos h]
    · rw [if_neg h]
      exact (ih.cons y).trans (List.Perm.swap x y ys)

theorem pySorted_perm {α : Type} (le : α → α → Bool) :
    ∀ l : List α, List.Perm (pySorted le l) l := by
  intro l
  induction l with
  | nil => exact List.Perm.refl _
  | cons x xs ih =>
    exact (pySortedInsert_perm le x (pySorted le xs)).trans (ih.cons x)

theorem mem_pySortedInsert {α : Type} {le : α → α → Bool} {x y : α} {l : List α}
    (h : y ∈ pySortedInsert le x l) : y = x ∨ y ∈ l := by
  have h' := (pySortedInsert_perm le x l).mem_iff.mp h
  simpa using h'

theorem pairwise_pySortedInsert {α : Type} {le : α → α → Bool}
    (htot : ∀ a b, le a b = true ∨ le b a = true)
    (htrans : ∀ a b c, le a b = true → le b c = true → le a c = true) (x : α) :
    ∀ l : List α, l.Pairwise (fun a b => le a b = true) →
      (pySortedInsert le x l).Pairwise (fun a b => le a b = true) := by
  intro l
  induction l with
  | nil => intro _; simp [pySortedInsert]
  | cons y ys ih =>
    intro h
    rcases List.pairwise_cons.mp h with ⟨hy, hys⟩
    simp only [pySortedInsert]
    by_cases hxy : le x y = true
    · rw [if_pos hxy]
      refine List.pairwise_cons.mpr ⟨?_, h⟩
      intro z hz
      rcases List.mem_cons.mp hz with rfl | hz
      · exact hxy
      · exact htrans x y z hxy (hy z hz)
    · rw [if_neg hxy]
      refine List.pairwise_cons.mpr ⟨?_, ih hys⟩
      intro z hz
      rcases mem_pySortedInsert hz with rfl | hz
      · rcases htot z y with h' | h'
        · exact absurd h' hxy
        · exact h'
      · exact hy z hz

theorem pairwise_pySorted {α : Type} {le : α → α → Bool}
    (htot : ∀ a b, le a b = true ∨ le b a = true)
    (htrans : ∀ a b c, le a b = true → le b c = true → le a c = true) :
    ∀ l : List α, (pySorted le l).Pairwise (fun a b => le a b = true) := by
  intro l
  induction l with
  | nil => simp [pySorted]
  | cons x xs ih => exact pairwise_pySortedInsert htot htrans x _ ih

/-! ### Helper lemmas: line splitting and stripping -/

theorem pySplit_not_mem {sep : Char} : ∀ {l : List Char}, sep ∉ l →
    pySplit sep l = [l] := by
  intro l
  induction l with
  | nil => intro _; rfl
  | cons c rest ih =>
    intro h
    have hc : c ≠ sep := fun hc => h (hc ▸ List.mem_cons_self c rest)
    have hr : sep ∉ rest := fun hr => h (List.mem_cons_of_mem c hr)
    simp [pySplit, hc, ih hr]

theorem pySplit_append {sep : Char} : ∀ {a : List Char} (b : List Char), sep ∉ a →
    pySplit sep (a ++ sep :: b) = a :: pySplit sep b := by
  intro a
  induction a with
  | nil =>
    intro b _
    simp [pySplit]
  | cons c rest ih =>
    intro b h
    have hc : c ≠ sep := fun hc => h (hc ▸ List.mem_cons_self c rest)
    have hr : sep ∉ rest := fun hr => h (List.mem_cons_of_mem c hr)
    simp [pySplit, hc, ih b hr]

theorem dropWhile_eq_self_of {p : Char → Bool} : ∀ {l : List Char},
    (∀ c ∈ l, p c = false) → l.dropWhile p = l := by
  intro l h
  cases l with
  | nil => rfl
  | cons c rest =>
    rw [List.dropWhile_cons, h c (List.mem_cons_self c rest)]
    simp

theorem pyStrip_nows {l : List Char} (h : ∀ c ∈ l, isPyWs c = false) :
    pyStrip l = l := by
  unfold pyStrip trimRightWs trimLeftWs
  rw [dropWhile_eq_self_of h]
  rw [dropWhile_eq_self_of (by intro c hc; exact h c (List.mem_reverse.mp hc))]
  exact l.reverse_reverse

theorem pyStrip_space_cons (l : List Char) : pyStrip (' ' :: l) = pyStrip l := by
  unfold pyStrip trimLeftWs
  rw [List.dropWhile_cons]
  norm_num [isPyWs]

/-! ### Helper lemmas: run collapsing (slug) -/

theorem dashMap_dropWhile (l : List Char) :
    ((l.map fun c => if isAsciiAlnum c then c else '-').dropWhile fun c => c = '-') =
      ((l.dropWhile fun d => !isAsciiAlnum d).map fun c => if isAsciiAlnum c then c else '-') := by
  induction l with
  | nil => rfl
  | cons c t ih =>
    by_cases hc : isAsciiAlnum c = true
    · have hcd : c ≠ '-' := by
        intro h
        rw [h] at hc
        exact absurd hc (by decide)
      simp [List.dropWhile_cons, hc, hcd]
    · simp only [Bool.not_eq_true] at hc
      simp [List.dropWhile_cons, hc, ih]

theorem squashDashes_dash_cons (l : List Char) :
    squashDashes ('-' :: l) = '-' :: squashDashes (l.dropWhile fun c => c = '-') := by
  induction l with
  | nil => rfl
  | cons b t ih =>
    by_cases hb : b = '-'
    · subst hb
      show squashDashes ('-' :: '-' :: t) = _
      rw [show squashDashes ('-' :: '-' :: t) = squashDashes ('-' :: t) from by
        simp [squashDashes]]
      rw [ih]
      simp [List.dropWhile_cons]
    · show squashDashes ('-' :: b :: t) = _
      rw [show squashDashes ('-' :: b :: t) = '-' :: squashDashes (b :: t) from by
        simp [squashDashes, hb]]
      simp [List.dropWhile_cons, hb]

theorem squashDashes_cons_of_ne {c : Char} (hc : c ≠ '-') (l : List Char) :
    squashDashes (c :: l) = c :: squashDashes l := by
  cases l with
  | nil => rfl
  | cons b t => simp [squashDashes, hc]

theorem collapseNonAlnum_eq_aux : ∀ (n : Nat) (l : List Char), l.length ≤ n →
    collapseNonAlnum l = runCollapse l := by
  intro n
  induction n with
  | zero =>
    intro l hl
    have : l = [] := List.eq_nil_of_length_eq_zero (Nat.le_zero.mp hl)
    subst this
    rw [runCollapse.eq_def]
    rfl
  | succ n ih =>
    intro l hl
    cases l with
    | nil =>
      rw [runCollapse.eq_def]
      rfl
    | cons c t =>
      rw [runCollapse.eq_def]
      by_cases hc : isAsciiAlnum c = true
      · have hcd : c ≠ '-' := by
          intro h
          rw [h] at hc
          exact absurd hc (by decide)
        simp only [hc, if_pos]
        unfold collapseNonAlnum
        rw [List.map_cons, show (if isAsciiAlnum c then c else '-') = c from if_pos hc,
          squashDashes_cons_of_ne hcd]
        have ht : t.length ≤ n := by
          simp only [List.length_cons] at hl
          omega
        rw [show squashDashes (t.map fun c => if isAsciiAlnum c then c else '-') =
          collapseNonAlnum t from rfl, ih t ht]
      · simp only [hc]
        simp only [Bool.false_eq_true, if_false]
        unfold collapseNonAlnum
        rw [List.map_cons, show (if isAsciiAlnum c then c else '-') = '-' from if_neg (by
          simpa using hc), squashDashes_dash_cons, dashMap_dropWhile]
        have ht : (t.dropWhile fun d => !isAsciiAlnum d).length ≤ n := by
          have h1 := (List.dropWhile_sublist (l := t) fun d => !isAsciiAlnum d).length_le
          simp only [List.length_cons] at hl
          omega
        rw [show squashDashes ((t.dropWhile fun d => !isAsciiAlnum d).map
          fun c => if isAsciiAlnum c then c else '-') =
          collapseNonAlnum (t.dropWhile fun d => !isAsciiAlnum d) from rfl,
          ih _ ht]

theorem collapseNonAlnum_eq_runCollapse (l : List Char) :
    collapseNonAlnum l = runCollapse l :=
  collapseNonAlnum_eq_aux l.length l (Nat.le_refl _)

/-! ### Claim C2 -/

/-- Claim C2 counterexample: the claim says the slug is lowercased; the code
never lowercases.  On the URL "http://a/B" the claimed slug is "b", the
code's slug is "B". -/
theorem c2_counterexample :
    safe_slug_from_url "http://a/B".data ≠ "b".data ∧
      safe_slug_from_url "http://a/B".data = "B".data := by
  constructor
  · decide
  · decide

/-- Claim C2 (amended): for every episode URL, the slug is the last path
segment (after stripping trailing slashes and percent-decoding) with each run
of non-alphanumeric characters collapsed to a single hyphen and leading and
trailing hyphens removed — case preserved, not lowercased; if the result is
empty the slug is the literal string "episode".  slug_model is that sentence
written as a definition; the code's function equals it on every input. -/
theorem c2_amended : ∀ url : List Char, safe_slug_from_url url = slug_model url := by
  intro url
  simp only [safe_slug_from_url, slug_model, collapseNonAlnum_eq_runCollapse]

/-! ### Claim C4 -/

theorem dateDescLe_total : ∀ a b : EpDate × Url,
    dateDescLe a b = true ∨ dateDescLe b a = true := by
  intro a b
  simp only [dateDescLe, decide_eq_true_eq]
  exact le_total b.1 a.1

theorem dateDescLe_trans : ∀ a b c : EpDate × Url, dateDescLe a b = true →
    dateDescLe b c = true → dateDescLe a c = true := by
  intro a b c
  simp only [dateDescLe, decide_eq_true_eq]
  intro h1 h2
  exact le_trans h2 h1

theorem fetch_listing_pre_sublist (collected : List (Url × EpDate))
    (since : Option EpDate) :
    List.Sublist (fetch_listing_pre collected since)
      (pySorted dateDescLe (collected.map fun p => (p.2, p.1))) := by
  unfold fetch_listing_pre
  cases since with
  | none => exact List.Sublist.refl _
  | some d => exact List.filter_sublist _

theorem fetch_listing_post_sublist (collected : List (Url × EpDate))
    (since : Option EpDate) (limit : Nat) :
    List.Sublist (fetch_listing_post collected since limit)
      (fetch_listing_pre collected since) := by
  unfold fetch_listing_post
  by_cases h : limit ≠ 0
  · rw [if_pos h]
    exact List.take_sublist _ _
  · rw [if_neg h]

theorem fetch_listing_sorted_pairwise (collected : List (Url × EpDate)) :
    (pySorted dateDescLe (collected.map fun p => (p.2, p.1))).Pairwise
      (fun a b => b.1 ≤ a.1) := by
  refine (pairwise_pySorted dateDescLe_total dateDescLe_trans _).imp ?_
  intro a b h
  simpa [dateDescLe] using h

/-- Claim C4: for every collection of (date, url) pairs gathered by the page
loop (a URL-keyed dictionary, so the URLs are distinct), fetch_listing
returns a list with no duplicate URLs, sorted by date descending; with
since = D every returned date is ≥ D; with a non-zero limit N at most N items
are returned and each of them is at least as recent as every item the
truncation cut off; limit 0 (Python None or 0) means no truncation. -/
theorem c4 (collected : List (Url × EpDate)) (since : Option EpDate) (limit : Nat)
    (hkeys : (collected.map fun p => p.1).Nodup) :
    ((fetch_listing_post collected since limit).map fun e => e.2).Nodup ∧
    (fetch_listing_post collected since limit).Pairwise (fun a b => b.1 ≤ a.1) ∧
    (∀ d, since = some d → ∀ e ∈ fetch_listing_post collected since limit, d ≤ e.1) ∧
    (limit ≠ 0 → (fetch_listing_post collected since limit).length ≤ limit) ∧
    (limit ≠ 0 → ∀ x ∈ fetch_listing_post collected since limit,
      ∀ y ∈ (fetch_listing_pre collected since).drop limit, y.1 ≤ x.1) ∧
    fetch_listing_post collected since 0 = fetch_listing_pre collected since := by
  have hsub : List.Sublist (fetch_listing_post collected since limit)
      (pySorted dateDescLe (collected.map fun p => (p.2, p.1))) :=
    (fetch_listing_post_sublist collected since limit).trans
      (fetch_listing_pre_sublist collected since)
  refine ⟨?_, ?_, ?_, ?_, ?_, ?_⟩
  · -- no duplicate URLs
    have hperm : List.Perm
        ((pySorted dateDescLe (collected.map fun p => (p.2, p.1))).map fun e => e.2)
        ((collected.map fun p => (p.2, p.1)).map fun e => e.2) :=
      (pySorted_perm dateDescLe (collected.map fun p => (p.2, p.1))).map _
    have hmapped : ((collected.map fun p => (p.2, p.1)).map fun e => e.2) =
        (collected.map fun p => p.1) := by
      simp [List.map_map, Function.comp]
    have hnodup_sorted :
        ((pySorted dateDescLe (collected.map fun p => (p.2, p.1))).map
          fun e => e.2).Nodup := by
      refine hperm.symm.nodup ?_
      rw [hmapped]
      exact hkeys
    exact hnodup_sorted.sublist (hsub.map _)
  · -- sorted by date descending
    exact (fetch_listing_sorted_pairwise collected).sublist hsub
  · -- since filter
    intro d hd e he
    subst hd
    have he' : e ∈ fetch_listing_pre collected (some d) :=
      (fetch_listing_post_sublist collected (some d) limit).subset he
    unfold fetch_listing_pre at he'
    have := List.of_mem_filter he'
    exact of_decide_eq_true this
  · -- length bound
    intro hlim
    unfold fetch_listing_post
    rw [if_pos hlim]
    exact List.length_take_le _ _
  · -- most recent: kept items dominate dropped items
    intro hlim x hx y hy
    have hpre_pw : (fetch_listing_pre collected since).Pairwise (fun a b => b.1 ≤ a.1) :=
      (fetch_listing_sorted_pairwise collected).sublist
        (fetch_listing_pre_sublist collected since)
    have hx' : x ∈ (fetch_listing_pre collected since).take limit := by
      unfold fetch_listing_post at hx
      rw [if_pos hlim] at hx
      exact hx
    rw [← List.take_append_drop limit (fetch_listing_pre collected since)] at hpre_pw
    exact (List.pairwise_append.mp hpre_pw).2.2 x hx' y hy
  · -- limit 0 is no truncation
    unfold fetch_listing_post
    simp

/-- Claim C4 witness: the listing post-processing at the concrete collection
collectedW with since = 4 and limit = 1. -/
theorem c4_witness :
    ((fetch_listing_post collectedW (some 4) 1).map fun e => e.2).Nodup ∧
    (fetch_listing_post collectedW (some 4) 1).Pairwise (fun a b => b.1 ≤ a.1) ∧
    (∀ d, (some (4 : EpDate)) = some d →
      ∀ e ∈ fetch_listing_post collectedW (some 4) 1, d ≤ e.1) ∧
    ((1 : Nat) ≠ 0 → (fetch_listing_post collectedW (some 4) 1).length ≤ 1) ∧
    ((1 : Nat) ≠ 0 → ∀ x ∈ fetch_listing_post collectedW (some 4) 1,
      ∀ y ∈ (fetch_listing_pre collectedW (some 4)).drop 1, y.1 ≤ x.1) ∧
    fetch_listing_post collectedW (some 4) 0 = fetch_listing_pre collectedW (some 4) :=
  c4 collectedW (some 4) 1 (by decide)

/-! ### Claim C6 -/

/-- Claim C6: if the destination file already exists, download_file makes no
network request and returns successfully with the filesystem unchanged; and
after any successful call, a second call with the same arguments makes zero
network requests and changes nothing (the first call's success guarantees the
destination now exists). -/
theorem c6 (fetch : List Char → Except String (List Char)) (fs : FS)
    (url dest : List Char) (fs' : FS) :
    (fsExists fs dest = true → download_file fetch fs url dest = (.ok fs, 0)) ∧
    ((download_file fetch fs url dest).1 = .ok fs' →
      download_file fetch fs' url dest = (.ok fs', 0)) := by
  constructor
  · intro h
    unfold download_file
    rw [if_pos h]
  · intro h
    unfold download_file at h
    by_cases hex : fsExists fs dest = true
    · rw [if_pos hex] at h
      simp only [Except.ok.injEq] at h
      subst h
      unfold download_file
      rw [if_pos hex]
    · rw [if_neg hex] at h
      cases hf : fetch url with
      | error e =>
        rw [hf] at h
        simp at h
      | ok body =>
        rw [hf] at h
        simp only [Except.ok.injEq] at h
        subst h
        unfold download_file
        rw [if_pos (by simp [fsExists, fsWrite, dictGet])]

/-- Claim C6 witness: the existing-destination case on a filesystem already
holding the file, and the second-call case after a first download into an
empty filesystem; both conclude a request-free no-op. -/
theorem c6_witness :
    download_file fetchOk fsDl "http://a/ep.mp3".data "data/ep.mp3".data =
      (.ok fsDl, 0) ∧
    download_file fetchOk fsDl "http://a/ep.mp3".data "data/ep.mp3".data =
      (.ok fsDl, 0) :=
  ⟨(c6 fetchOk fsDl "http://a/ep.mp3".data "data/ep.mp3".data fsDl).1 (by decide),
   (c6 fetchOk [] "http://a/ep.mp3".data "data/ep.mp3".data fsDl).2 rfl⟩

/-! ### Helper lemmas: episode.txt shape after a completed run -/

theorem dictGet_fsWrite (k v : List Char) (fs : FS) :
    dictGet (fsWrite k v fs) k = some v := by
  simp [fsWrite, dictGet]

theorem process_ok_lookup {orc : ScrapeOracle} {download : Bool} {fs : FS}
    {dateStr url : List Char} {r : ExtractResult} {fs' : FS} {folder : List Char}
    (hex : orc.extract_media url = .ok r)
    (hrun : process_episode orc download fs dateStr url = .ok (fs', folder)) :
    folder = dateStr ++ '-' :: safe_slug_from_url url ∧
      dictGet fs' (folder ++ "/episode.txt".data) = some (episode_txt_content url r) := by
  unfold process_episode at hrun
  rw [hex] at hrun
  simp only at hrun
  cases hms : mp3_step orc.fetchFile fs (dateStr ++ '-' :: safe_slug_from_url url)
      r.mp3_url download with
  | error e =>
    rw [hms] at hrun
    exact absurd hrun (by simp)
  | ok fs1 =>
    rw [hms] at hrun
    simp only [Except.ok.injEq, Prod.mk.injEq] at hrun
    obtain ⟨hfs, hfolder⟩ := hrun
    subst hfolder
    refine ⟨rfl, ?_⟩
    rw [← hfs]
    exact dictGet_fsWrite _ _ _

theorem episode_txt_split (url : List Char) (r : ExtractResult)
    (hu : '\n' ∉ url) (hm : '\n' ∉ r.mp3_url.getD [])
    (hi : '\n' ∉ r.image_url.getD []) :
    pySplit '\n' (episode_txt_content url r) = episode_txt_lines url r := by
  have h1 : '\n' ∉ "url: ".data ++ url := by
    intro h
    rcases List.mem_append.mp h with h | h
    · exact absurd h (by decide)
    · exact hu h
  have h2 : '\n' ∉ "mp3: ".data ++ r.mp3_url.getD [] := by
    intro h
    rcases List.mem_append.mp h with h | h
    · exact absurd h (by decide)
    · exact hm h
  have h3 : '\n' ∉ "transcript: ".data ++
      (if optStrTruthy r.transcript then "transcript.txt".data else []) := by
    by_cases ht : optStrTruthy r.transcript = true
    · rw [if_pos ht]
      decide
    · rw [if_neg ht]
      decide
  have h4 : '\n' ∉ "image: ".data ++ r.image_url.getD [] := by
    intro h
    rcases List.mem_append.mp h with h | h
    · exact absurd h (by decide)
    · exact hi h
  show pySplit '\n' (joinLines (episode_txt_lines url r)) = episode_txt_lines url r
  unfold episode_txt_lines
  simp only [joinLines]
  rw [pySplit_append _ h1, pySplit_append _ h2, pySplit_append _ h3,
    pySplit_not_mem h4]

/-! ### Claim C7 -/

/-- Claim C7: every completed run of process_episode leaves an episode.txt in
the episode folder holding exactly 4 lines, keyed url, mp3, transcript, image
in that order, with an empty value for each absent optional field (the
transcript line holds the file name "transcript.txt" when a transcript was
extracted).  The newline-freedom hypotheses say the URL and the extracted
attribute values are single-line, as they are in any real page (the audio URL
is a regex match that excludes whitespace, the others are attribute values). -/
theorem c7 (orc : ScrapeOracle) (download : Bool) (fs : FS)
    (dateStr url : List Char) (r : ExtractResult) (fs' : FS) (folder : List Char)
    (hex : orc.extract_media url = .ok r)
    (hrun : process_episode orc download fs dateStr url = .ok (fs', folder))
    (hu : '\n' ∉ url) (hm : '\n' ∉ r.mp3_url.getD [])
    (hi : '\n' ∉ r.image_url.getD []) :
    dictGet fs' (folder ++ "/episode.txt".data) = some (episode_txt_content url r) ∧
    pySplit '\n' (episode_txt_content url r) =
      ["url: ".data ++ url,
       "mp3: ".data ++ r.mp3_url.getD [],
       "transcript: ".data ++
         (if optStrTruthy r.transcript then "transcript.txt".data else []),
       "image: ".data ++ r.image_url.getD []] :=
  ⟨(process_ok_lookup hex hrun).2, episode_txt_split url r hu hm hi⟩

/-- Claim C7 witness: a concrete completed scrape run; its episode.txt parses
into exactly the four expected lines. -/
theorem c7_witness :
    dictGet fsW (folderW ++ "/episode.txt".data) =
      some (episode_txt_content urlW extractFull) ∧
    pySplit '\n' (episode_txt_content urlW extractFull) =
      ["url: ".data ++ urlW,
       "mp3: ".data ++ extractFull.mp3_url.getD [],
       "transcript: ".data ++
         (if optStrTruthy extractFull.transcript then "transcript.txt".data else []),
       "image: ".data ++ extractFull.image_url.getD []] :=
  c7 scrapeOracleFull true [] dateW urlW extractFull fsW folderW rfl rfl
    (by decide) (by decide) (by decide)

/-! ### Claim C10 -/

/-- Claim C10: round-trip between the episode.txt writer of process_episode
and parse_episode_meta.  For every episode URL with no newline and no leading
or trailing whitespace (pyStrip url = url states the latter), after a
completed run the parsed mapping's "url" entry is the episode URL and its
"mp3" entry is the extracted audio URL or the empty string.  The audio URL
hypothesis (no whitespace characters at all) restates what its source
guarantees: it is a match of the regex https?://[^\s"]+\.mp3, whose character
class excludes whitespace; the image hypothesis keeps that attribute
single-line. -/
theorem c10 (orc : ScrapeOracle) (download : Bool) (fs : FS)
    (dateStr url : List Char) (r : ExtractResult) (fs' : FS) (folder : List Char)
    (hex : orc.extract_media url = .ok r)
    (hrun : process_episode orc download fs dateStr url = .ok (fs', folder))
    (hu : '\n' ∉ url) (hstrip : pyStrip url = url)
    (hm : ∀ c ∈ r.mp3_url.getD [], isPyWs c = false)
    (hi : '\n' ∉ r.image_url.getD []) :
    dictGet (parse_episode_meta fs' folder) "url".data = some url ∧
    dictGet (parse_episode_meta fs' folder) "mp3".data = some (r.mp3_url.getD []) := by
  have hmnl : '\n' ∉ r.mp3_url.getD [] := by
    intro h
    have := hm _ h
    simp [isPyWs] at this
  have hlook := (process_ok_lookup hex hrun).2
  have hparse : parse_episode_meta fs' folder =
      parse_meta_content (episode_txt_content url r) := by
    unfold parse_episode_meta
    rw [hlook]
  rw [hparse]
  unfold parse_meta_content
  rw [episode_txt_split url r hu hmnl hi]
  unfold episode_txt_lines
  simp only [List.foldl_cons, List.foldl_nil]
  have hc1 : ':' ∈ "url: ".data ++ url := List.mem_append.mpr (Or.inl (by decide))
  have hc2 : ':' ∈ "mp3: ".data ++ r.mp3_url.getD [] :=
    List.mem_append.mpr (Or.inl (by decide))
  have hc3 : ':' ∈ "transcript: ".data ++
      (if optStrTruthy r.transcript then "transcript.txt".data else []) :=
    List.mem_append.mpr (Or.inl (by decide))
  have hc4 : ':' ∈ "image: ".data ++ r.image_url.getD [] :=
    List.mem_append.mpr (Or.inl (by decide))
  rw [if_pos hc1, if_pos hc2, if_pos hc3, if_pos hc4]
  have k1 : (splitFirst ':' ("url: ".data ++ url)).1 = "url".data := rfl
  have v1 : (splitFirst ':' ("url: ".data ++ url)).2 = ' ' :: url := rfl
  have k2 : (splitFirst ':' ("mp3: ".data ++ r.mp3_url.getD [])).1 = "mp3".data := rfl
  have v2 : (splitFirst ':' ("mp3: ".data ++ r.mp3_url.getD [])).2 =
      ' ' :: r.mp3_url.getD [] := rfl
  have k3 : (splitFirst ':' ("transcript: ".data ++
      (if optStrTruthy r.transcript then "transcript.txt".data else []))).1 =
      "transcript".data := rfl
  have k4 : (splitFirst ':' ("image: ".data ++ r.image_url.getD [])).1 =
      "image".data := rfl
  rw [k1, v1, k2, v2, k3, k4]
  rw [show pyStrip "url".data = "url".data from by decide,
    show pyStrip "mp3".data = "mp3".data from by decide,
    show pyStrip "transcript".data = "transcript".data from by decide,
    show pyStrip "image".data = "image".data from by decide]
  rw [show pyStrip (' ' :: url) = url from by rw [pyStrip_space_cons]; exact hstrip]
  rw [show pyStrip (' ' :: r.mp3_url.getD []) = r.mp3_url.getD [] from by
    rw [pyStrip_space_cons]; exact pyStrip_nows hm]
  exact ⟨rfl, rfl⟩

/-- Claim C10 witness: the concrete completed run of the C7 witness, parsed
back; the url and mp3 entries round-trip. -/
theorem c10_witness :
    dictGet (parse_episode_meta fsW folderW) "url".data = some urlW ∧
    dictGet (parse_episode_meta fsW folderW) "mp3".data =
      some (extractFull.mp3_url.getD []) :=
  c10 scrapeOracleFull true [] dateW urlW extractFull fsW folderW rfl rfl
    (by decide) (by decide) (by decide) (by decide)

/-! ### Claims C1 and C5 -/

/-- Claim C1 counterexample: for a directory with no transcript.txt,
upload_single_episode issues no request but returns False, not success;
cmd_upload therefore does not count the skip as a success. -/
theorem c1_counterexample :
    ¬ ((upload_single_episode uoOk epNoTranscript []).1 = true ∧
      (upload_single_episode uoOk epNoTranscript []).2 = []) := by
  decide

/-- Claim C1 (amended): for every episode directory whose transcript.txt is
missing, upload_single_episode performs no remote request and returns failure
(False) — the skip is a no-op, but it is counted as a failed upload, not a
success. -/
theorem c1_amended (orc : UploadOracle) (ep : EpisodeDir)
    (existing : List (String × Nat)) (h : ep.transcript = none) :
    upload_single_episode orc ep existing = (false, []) := by
  unfold upload_single_episode
  rw [h]

/-- Claim C1 witness: the amended theorem at the concrete
transcript-less directory. -/
theorem c1_witness : upload_single_episode uoOk epNoTranscript [] = (false, []) :=
  c1_amended uoOk epNoTranscript [] rfl

/-- Claim C5 counterexample: an episode directory whose canonical title is
already in the remote mapping but whose transcript.txt is missing returns
False, not success — the transcript check precedes the dedup skip. -/
theorem c5_counterexample :
    (dictGet existingTaken
      ("Journal en français facile " ++ epTitleTaken.name.take 10)).isSome = true ∧
    (upload_single_episode uoOk epTitleTaken existingTaken).1 = false := by
  constructor
  · decide
  · decide

/-- Claim C5 (amended): for every episode directory that contains
transcript.txt and every remote mapping already holding the canonical title
"Journal en français facile {date}" built from the first 10 characters of the
directory name, upload_single_episode returns success and issues no remote
request at all (in particular no create-lesson request). -/
theorem c5_amended (orc : UploadOracle) (ep : EpisodeDir)
    (existing : List (String × Nat)) (t : List Char) (lid : Nat)
    (htr : ep.transcript = some t)
    (hex : dictGet existing ("Journal en français facile " ++ ep.name.take 10) =
      some lid) :
    upload_single_episode orc ep existing = (true, []) := by
  unfold upload_single_episode
  rw [htr]
  simp [hex]

/-- Claim C5 witness: the amended theorem at a concrete eligible directory
whose title is already present remotely. -/
theorem c5_witness :
    upload_single_episode uoOk epTitleTakenOk existingTaken = (true, []) :=
  c5_amended uoOk epTitleTakenOk existingTaken "Bonjour.".data 7 rfl (by decide)

/-! ### Claim C3 -/

/-- Claim C3 counterexample: the scrape loop has no per-item try/except, so
an exception raised while processing the first episode (here the episode-page
request fails) aborts the whole scrape batch: the loop ends with the error
and the second episode is never processed. -/
theorem c3_counterexample :
    cmd_scrape_loop scrapeOracleDown [] scrapeEpisodes2 = .error "connection reset" ∧
    ∀ fs : FS, cmd_scrape_loop scrapeOracleDown [] scrapeEpisodes2 ≠ .ok fs := by
  constructor
  · rfl
  · intro fs h
    rw [show cmd_scrape_loop scrapeOracleDown [] scrapeEpisodes2 =
      .error "connection reset" from rfl] at h
    exact absurd h (by simp)

/-- Claim C3 (amended): upload failures are isolated per item — every target
of the upload batch is processed, each item's outcome is independent of the
others', and a create exception becomes a False result rather than an abort;
within episode processing an image-download failure is caught and the episode
still completes.  But the scrape loop itself is not protected: an exception
while fetching an episode page or downloading its audio propagates out of
process_episode and aborts the scrape batch (the counterexample). -/
theorem c3_amended (uorc : UploadOracle) (existing : List (String × Nat))
    (targets : List EpisodeDir) (ep : EpisodeDir) (orc : ScrapeOracle) (fs : FS)
    (dateStr url : List Char) (r : ExtractResult)
    (hex : orc.extract_media url = .ok r) (hm : r.mp3_url = none) :
    (cmd_upload_results uorc existing targets).length = targets.length ∧
    cmd_upload_results uorc existing (ep :: targets) =
      (upload_single_episode uorc ep existing).1 ::
        cmd_upload_results uorc existing targets ∧
    ∃ fs', process_episode orc true fs dateStr url =
      .ok (fs', dateStr ++ '-' :: safe_slug_from_url url) := by
  refine ⟨by simp [cmd_upload_results], rfl, ?_⟩
  unfold process_episode
  rw [hex]
  simp only
  rw [show mp3_step orc.fetchFile fs (dateStr ++ '-' :: safe_slug_from_url url)
      r.mp3_url true = .ok fs from by rw [hm]; rfl]
  exact ⟨_, rfl⟩

/-- Claim C3 witness: the amended theorem at a concrete upload batch and a
concrete episode whose image download fails while the episode completes. -/
theorem c3_witness :
    (cmd_upload_results uoOk [] [epTitleTakenOk]).length = [epTitleTakenOk].length ∧
    cmd_upload_results uoOk [] (epNoTranscript :: [epTitleTakenOk]) =
      (upload_single_episode uoOk epNoTranscript []).1 ::
        cmd_upload_results uoOk [] [epTitleTakenOk] ∧
    ∃ fs', process_episode scrapeOracleNoMp3 true [] dateW "http://a/ep-one".data =
      .ok (fs', dateW ++ '-' :: safe_slug_from_url "http://a/ep-one".data) :=
  c3_amended uoOk [] [epTitleTakenOk] epNoTranscript scrapeOracleNoMp3 []
    dateW "http://a/ep-one".data extractNoMp3 rfl rfl

/-! ### Claim C8 -/

theorem gcl_aux (srv : Nat → PageResp) : ∀ (n page : Nat)
    (m : List (List Char × Nat)), stopPage (srv (page + n)) = true →
    ∃ m', get_collection_lessons_fuel srv (n + 1) page m = some m' := by
  intro n
  induction n with
  | zero =>
    intro page m hstop
    rw [Nat.add_zero] at hstop
    unfold get_collection_lessons_fuel
    cases hr : srv page with
    | notFound => exact ⟨m, rfl⟩
    | reqError e => exact ⟨m, rfl⟩
    | ok p =>
      rw [hr] at hstop
      unfold stopPage at hstop
      simp only
      by_cases he : (normalize_collection_list p).isEmpty = true
      · rw [if_pos he]
        exact ⟨m, rfl⟩
      · rw [if_neg he]
        simp only [he, Bool.false_or] at hstop
        cases p with
        | bare xs => exact ⟨_, rfl⟩
        | other => exact ⟨_, rfl⟩
        | dict d rres hasNext =>
          simp only [Bool.not_eq_true'] at hstop
          rw [hstop]
          exact ⟨_, rfl⟩
  | succ n ih =>
    intro page m hstop
    unfold get_collection_lessons_fuel
    cases hr : srv page with
    | notFound => exact ⟨m, rfl⟩
    | reqError e => exact ⟨m, rfl⟩
    | ok p =>
      simp only
      by_cases he : (normalize_collection_list p).isEmpty = true
      · rw [if_pos he]
        exact ⟨m, rfl⟩
      · rw [if_neg he]
        cases p with
        | bare xs => exact ⟨_, rfl⟩
        | other => exact ⟨_, rfl⟩
        | dict d rres hasNext =>
          by_cases hn : hasNext = true
          · rw [hn]
            simp only [if_true]
            apply ih (page + 1)
            rw [show page + 1 + n = page + (n + 1) from by omega]
            exact hstop
          · rw [Bool.not_eq_true] at hn
            rw [hn]
            exact ⟨_, rfl⟩

/-- Claim C8: for every server behaviour (every page in any of the three
envelope shapes), as soon as some page k is terminal — a 404, a request
error, an empty normalized list, a bare list or other non-dict body (whose
missing "next" attribute raises and is caught), or a dict without a "next"
value — the pagination loop returns a mapping within k requests: it never
iterates more times than the number of pages the server actually returns
(the iteration budget k is exactly one unit per request). -/
theorem c8 (srv : Nat → PageResp) (k : Nat) (hk : 1 ≤ k)
    (hstop : stopPage (srv k) = true) :
    ∃ m, get_collection_lessons_fuel srv k 1 [] = some m := by
  obtain ⟨n, rfl⟩ : ∃ n, k = n + 1 := ⟨k - 1, by omega⟩
  apply gcl_aux
  rw [show 1 + n = n + 1 from by omega]
  exact hstop

/-- Claim C8 witness: a server whose first page is a 404; the loop stops
after one request. -/
theorem c8_witness :
    ∃ m, get_collection_lessons_fuel (fun _ => PageResp.notFound) 1 1 [] = some m :=
  c8 (fun _ => PageResp.notFound) 1 (by decide) rfl

/-! ### Claim C9 -/

theorem nameLe_total : ∀ a b : EpisodeDir, nameLe a b = true ∨ nameLe b a = true := by
  intro a b
  simp only [nameLe, decide_eq_true_eq]
  exact le_total a.name b.name

theorem nameLe_trans : ∀ a b c : EpisodeDir, nameLe a b = true →
    nameLe b c = true → nameLe a c = true := by
  intro a b c
  simp only [nameLe, decide_eq_true_eq]
  exact le_trans

theorem cmd_upload_pretargets_pairwise (entries : List EpisodeDir)
    (dateArg : Option String) :
    (cmd_upload_pretargets entries dateArg).Pairwise (fun a b => a.name ≤ b.name) := by
  have hs : (pySorted nameLe entries).Pairwise (fun a b => a.name ≤ b.name) := by
    refine (pairwise_pySorted nameLe_total nameLe_trans entries).imp ?_
    intro a b h
    simpa [nameLe] using h
  unfold cmd_upload_pretargets find_episodes
  cases dateArg with
  | none => exact hs.filter _
  | some d => exact (hs.filter _).filter _

/-- Claim C9 (implicit): cmd_upload iterates over episode directories in
ascending lexicographic order of directory name (names start with the
YYYY-MM-DD date, so oldest first), and with a non-zero limit N the selected
targets are the N lexicographically smallest eligible directories: every
selected directory's name is ≤ every eligible one the truncation dropped. -/
theorem c9 (entries : List EpisodeDir) (dateArg : Option String) (limit : Nat) :
    (cmd_upload_targets entries dateArg limit).Pairwise (fun a b => a.name ≤ b.name) ∧
    (limit ≠ 0 → ∀ x ∈ cmd_upload_targets entries dateArg limit,
      ∀ y ∈ (cmd_upload_pretargets entries dateArg).drop limit, x.name ≤ y.name) := by
  have hpre := cmd_upload_pretargets_pairwise entries dateArg
  constructor
  · unfold cmd_upload_targets
    by_cases h : limit ≠ 0
    · rw [if_pos h]
      exact hpre.sublist (List.take_sublist _ _)
    · rw [if_neg h]
      exact hpre
  · intro hlim x hx y hy
    have hx' : x ∈ (cmd_upload_pretargets entries dateArg).take limit := by
      unfold cmd_upload_targets at hx
      rw [if_pos hlim] at hx
      exact hx
    rw [← List.take_append_drop limit (cmd_upload_pretargets entries dateArg)] at hpre
    exact (List.pairwise_append.mp hpre).2.2 x hx' y hy

/-- Claim C9 witness: the concrete directory listing entriesW (two eligible
directories, out of name order, and one ineligible entry) with limit 1;
the selection is name-sorted and minimal. -/
theorem c9_witness :
    (cmd_upload_targets entriesW none 1).Pairwise (fun a b => a.name ≤ b.name) ∧
    ((1 : Nat) ≠ 0 → ∀ x ∈ cmd_upload_targets entriesW none 1,
      ∀ y ∈ (cmd_upload_pretargets entriesW none).drop 1, x.name ≤ y.name) :=
  c9 entriesW none 1

end RFItoLingq
